import Mathlib

/-!
Shallow embedding of the zestic/oauth-expo package: the Expo storage adapter
(AsyncStorage-backed token store), the Expo PKCE adapter, the
ExpoOAuthAdapter callback-parameter normalization and access-token logic,
the useOAuthCallback hook state machine, and the OAuthCallbackScreen
auto-redirect timer effect.  The asynchronous key-value store is modelled as
a function from keys to optional string values; external collaborators
(the oauth-core library, expo-crypto, Math.random, AsyncStorage failures)
are passed in as explicit parameters describing their outcome.
-/

namespace OAuthExpo

/-- The persistent key-value store (AsyncStorage): key to optional string. -/
def Store : Type := String → Option String

/-- A store holding no entries at all. -/
def emptyStore : Store := fun _ => none

namespace ExpoStorageAdapter

/-- Model of `setItem(key, value)`: writes one key. -/
def setItem (st : Store) (key value : String) : Store :=
  fun k => if k = key then some value else st k

/-- Removal of a list of keys from the store (effect of a successful
`AsyncStorage.multiRemove`). -/
def removeItemsFrom (st : Store) (keys : List String) : Store :=
  fun k => if k ∈ keys then none else st k

/-- Model of `removeItems(keys)`: wraps `AsyncStorage.multiRemove`.  The
`backendFails` flag models the underlying bulk-remove rejecting; in that
case the adapter rethrows one wrapped error naming the offending keys. -/
def removeItems (st : Store) (keys : List String) (backendFails : Bool) :
    Except String Store :=
  if backendFails then
    Except.error
      ("Failed to remove items with keys \"" ++ String.intercalate ", " keys ++ "\"")
  else
    Except.ok (removeItemsFrom st keys)

/-- The fixed list of OAuth-related keys used by `clearOAuthStorage`. -/
def oauthKeys : List String :=
  ["access_token", "refresh_token", "token_expiry", "token_type",
   "oauth_state", "oauth_state_expiry", "pkce_code_verifier",
   "pkce_code_challenge", "pkce_code_challenge_method"]

/-- Model of `clearOAuthStorage()`: one bulk remove of the fixed key set. -/
def clearOAuthStorage (st : Store) (backendFails : Bool) : Except String Store :=
  removeItems st oauthKeys backendFails

/-- Input of `storeTokens`; `none` models an absent (undefined) field. -/
structure StoreTokensInput where
  accessToken : String
  refreshToken : Option String := none
  expiresIn : Option Int := none
deriving DecidableEq

/-- Model of `storeTokens(tokens)` at current time `now` (epoch ms).
Mirrors the source exactly: the access token is always written; the
refresh token is written only when present and truthy (a JS empty string
is falsy); `token_expiry` is written only when `expiresIn` is truthy —
in JS the number `0` is falsy, so a zero `expiresIn` skips the write —
with value `(now + expiresIn * 1000).toString()`; finally `token_type`
is always stamped `"Bearer"`. -/
def storeTokens (st : Store) (now : Int) (tokens : StoreTokensInput) : Store :=
  let st1 := setItem st "access_token" tokens.accessToken
  let st2 :=
    match tokens.refreshToken with
    | some r => if r ≠ "" then setItem st1 "refresh_token" r else st1
    | none => st1
  let st3 :=
    match tokens.expiresIn with
    | some n =>
        if n ≠ 0 then setItem st2 "token_expiry" (toString (now + n * 1000)) else st2
    | none => st2
  setItem st3 "token_type" "Bearer"

/-- Model of JS `parseInt(s, 10)`: skip leading spaces, optional sign,
then the longest leading run of decimal digits; `none` models `NaN`. -/
def digitsToNat (l : List Char) : Nat :=
  l.foldl (fun a c => 10 * a + (c.toNat - 48)) 0

/-- Sign and digit handling of `parseInt`. -/
def parseIntJS (s : String) : Option Int :=
  let l := s.data.dropWhile (fun c => c = ' ')
  let signAndRest : Int × List Char :=
    match l with
    | '-' :: r => (-1, r)
    | '+' :: r => (1, r)
    | r => (1, r)
  let ds := signAndRest.2.takeWhile (fun c => c.isDigit)
  if ds = [] then none else some (signAndRest.1 * (digitsToNat ds : Int))

/-- Result of `getTokens()`; `none` models `null` (and for `tokenType`,
`undefined`).  A `token_expiry` string that `parseInt` cannot parse is
modelled as `none` as well (the source would yield `NaN` there). -/
structure TokenData where
  accessToken : Option String
  refreshToken : Option String
  expiresAt : Option Int
  tokenType : Option String
deriving DecidableEq

/-- Model of `getTokens()`: reads the four token keys and applies the
defaulting of the source (`expiresAtStr ? parseInt(...) : null` and
`tokenType || undefined`, where the JS empty string is falsy). -/
def getTokens (st : Store) : TokenData :=
  let accessToken := st "access_token"
  let refreshToken := st "refresh_token"
  let expiresAt : Option Int :=
    match st "token_expiry" with
    | some s => if s ≠ "" then parseIntJS s else none
    | none => none
  let tokenType : Option String :=
    match st "token_type" with
    | some t => if t ≠ "" then some t else none
    | none => none
  { accessToken := accessToken, refreshToken := refreshToken,
    expiresAt := expiresAt, tokenType := tokenType }

/-- Model of `isTokenExpired(expiresAt?)` at current time `now`.
`explicit = none` models both an `undefined` and a `null` argument (the
source takes the storage path for both).  With an explicit number the
source returns `Date.now() >= expiresAt` directly.  On the storage path
a missing or empty `token_expiry` is treated as expired; an unparsable
stored string makes the `>=` comparison with `NaN` false. -/
def isTokenExpired (st : Store) (now : Int) (explicit : Option Int) : Bool :=
  match explicit with
  | some e => now ≥ e
  | none =>
    match st "token_expiry" with
    | none => true
    | some s =>
      if s = "" then true
      else
        match parseIntJS s with
        | none => false
        | some e => now ≥ e

end ExpoStorageAdapter

namespace ExpoPKCEAdapter

/-- The 66-character charset of `generateRandomString` in the source. -/
def pkceCharset : List Char :=
  "ABCDEFGHIJKLMNOPQRSTUVWXYZabcdefghijklmnopqrstuvwxyz0123456789-._~".data

/-- Model of `generateRandomString(length)`: the i-th character is
`charset.charAt(floor(Math.random() * charset.length))`; the random
draws are modelled by the oracle `rand`, one index per position. -/
def generateRandomString (length : Nat) (rand : Nat → Fin pkceCharset.length) :
    String :=
  String.mk ((List.range length).map (fun i => pkceCharset.get (rand i)))

/-- Substitution of the first `replace` of the source: plus to minus. -/
def plusToMinus (c : Char) : Char := if c = '+' then '-' else c

/-- Substitution of the second `replace` of the source: slash to underscore. -/
def slashToUnderscore (c : Char) : Char := if c = '/' then '_' else c

/-- The base64url transform in `sha256`: replace every `+` with `-`, then
every `/` with `_`, then strip every `=`. -/
def base64urlOfBase64 (s : String) : String :=
  String.mk (((s.data.map plusToMinus).map slashToUnderscore).filter
    (fun c => c ≠ '='))

/-- Model of the private `sha256(plain)` method: `digestBase64` is the
oracle for `Crypto.digestStringAsync(SHA256, plain, BASE64)`, and the
result is its base64url transform. -/
def sha256 (digestBase64 : String → String) (plain : String) : String :=
  base64urlOfBase64 (digestBase64 plain)

/-- Result type of `generateCodeChallenge` (PKCEChallenge). -/
structure PKCEChallenge where
  codeChallenge : String
  codeChallengeMethod : String
  codeVerifier : String
deriving DecidableEq

/-- Model of `generateCodeChallenge()`: a 128-character verifier and the
SHA-256 base64url challenge, with the fixed method string. -/
def generateCodeChallenge (rand : Nat → Fin pkceCharset.length)
    (digestBase64 : String → String) : PKCEChallenge :=
  let codeVerifier := generateRandomString 128 rand
  let codeChallenge := sha256 digestBase64 codeVerifier
  { codeChallenge := codeChallenge, codeChallengeMethod := "S256",
    codeVerifier := codeVerifier }

/-- The standard base64 alphabet together with the padding character. -/
def base64Chars : List Char :=
  "ABCDEFGHIJKLMNOPQRSTUVWXYZabcdefghijklmnopqrstuvwxyz0123456789+/=".data

/-- The base64url alphabet (no padding). -/
def base64urlChars : List Char :=
  "ABCDEFGHIJKLMNOPQRSTUVWXYZabcdefghijklmnopqrstuvwxyz0123456789-_".data

end ExpoPKCEAdapter

/-- Result returned by the delegated oauth-core callback handler; the
claims only inspect the success flag, the error string and the access
token, so the payload is modelled by those fields. -/
structure OAuthResult where
  success : Bool
  error : Option String := none
  accessToken : Option String := none
deriving DecidableEq

/-- A JS value thrown by the delegated handling: either an `Error` object
carrying a message, or any non-`Error` value. -/
inductive Thrown where
  | errObj : String → Thrown
  | other : Thrown
deriving DecidableEq

namespace ExpoOAuthAdapter

/-- Callback parameters as an ordered map; the values of the TS type are
`string | null | undefined`, and `none` models both null and undefined. -/
abbrev CallbackParams : Type := List (String × Option String)

/-- Model of `URLSearchParams.set`: replace the first binding of the key
(dropping any later duplicate bindings) or append a fresh binding. -/
def urlSearchSet (ps : List (String × String)) (key val : String) :
    List (String × String) :=
  match ps with
  | [] => [(key, val)]
  | (k, v) :: rest =>
    if k = key then (key, val) :: rest.filter (fun p => p.1 ≠ key)
    else (k, v) :: urlSearchSet rest key val

/-- The URLSearchParams built in `handleCallback`: iterate the entries and
`set` each key whose value is neither null nor undefined (for string
values, `String(value)` is the value itself). -/
def toUrlSearchParams (params : CallbackParams) : List (String × String) :=
  params.foldl
    (fun acc kv =>
      match kv.2 with
      | some v => urlSearchSet acc kv.1 v
      | none => acc)
    []

/-- The keys present in a query representation. -/
def queryKeys (ps : List (String × String)) : List String := ps.map Prod.fst

/-- Model of `ExpoOAuthAdapter.handleCallback(params)`: builds the query
representation and hands exactly it to the external core, whose outcome
is the oracle `core`. -/
def handleCallback (core : List (String × String) → Except Thrown OAuthResult)
    (params : CallbackParams) : Except Thrown OAuthResult :=
  core (toUrlSearchParams params)

/-- Model of `logout()`: clears the OAuth storage keys. -/
def logout (st : Store) (backendFails : Bool) : Except String Store :=
  ExpoStorageAdapter.clearOAuthStorage st backendFails

/-- Model of `getAccessToken()`.  The two oauth-core calls are modelled by
their outcomes (`Except.error` models a thrown error, caught by the
source with a `null` return): read the token; a missing or falsy token
yields null; if the expiry check reports expired, perform `logout()` and
return null (a failing logout is caught and still returns null, with the
store unchanged because the bulk remove is atomic); otherwise return the
token.  The second component is the resulting store. -/
def getAccessToken (st : Store) (coreGet : Except String (Option String))
    (coreExpired : Except String Bool) (clearFails : Bool) :
    Option String × Store :=
  match coreGet with
  | Except.error _ => (none, st)
  | Except.ok none => (none, st)
  | Except.ok (some tok) =>
    if tok = "" then (none, st)
    else
      match coreExpired with
      | Except.error _ => (none, st)
      | Except.ok true =>
        match logout st clearFails with
        | Except.ok st2 => (none, st2)
        | Except.error _ => (none, st)
      | Except.ok false => (some tok, st)

end ExpoOAuthAdapter

namespace UseOAuthCallback

/-- The hook status values. -/
inductive OAuthStatus where
  | processing
  | success
  | error
deriving DecidableEq

/-- Observable outcome of one run of the hook `handleCallback` function:
final status and message, plus the arguments of every invocation of the
optional `onSuccess` and `onError` callbacks (an `onError` invocation is
recorded by the message of the normalized `Error` object it receives). -/
structure HookOutcome where
  status : OAuthStatus
  message : String
  successCalls : List OAuthResult
  errorCalls : List String
deriving DecidableEq

/-- The message of `error instanceof Error ? error.message : ...` in the
catch block. -/
def normalizeMessage : Thrown → String
  | Thrown.errObj m => m
  | Thrown.other => "Unknown error occurred"

/-- Message of the error thrown on a failure result:
`result.error || 'OAuth authentication failed'` (empty string is falsy). -/
def failureMessage (err : Option String) : String :=
  match err with
  | some e => if e ≠ "" then e else "OAuth authentication failed"
  | none => "OAuth authentication failed"

/-- Model of the hook `handleCallback` body: the argument is the outcome
of `adapter.handleCallback(params)` (`Except.error` models a rejection).
On a success-flagged result the status becomes success with the fixed
message and `onSuccess` receives the full result once; on a
failure-flagged result an `Error` with the failure message is thrown and
caught; any caught value yields the error status, the normalized message,
and one `onError` invocation with that message. -/
def handleCallback (outcome : Except Thrown OAuthResult) : HookOutcome :=
  match outcome with
  | Except.ok r =>
    if r.success then
      { status := OAuthStatus.success, message := "Authentication successful",
        successCalls := [r], errorCalls := [] }
    else
      { status := OAuthStatus.error, message := failureMessage r.error,
        successCalls := [], errorCalls := [failureMessage r.error] }
  | Except.error t =>
    { status := OAuthStatus.error, message := normalizeMessage t,
      successCalls := [], errorCalls := [normalizeMessage t] }

/-- Model of `retry()`: the source defines it as a call of the same
`handleCallback` function. -/
def retry (outcome : Except Thrown OAuthResult) : HookOutcome :=
  handleCallback outcome

end UseOAuthCallback

namespace OAuthCallbackScreen

/-- State of the JS timer queue: the next fresh handle and the pending
timers as pairs of handle and delay. -/
structure TimerState where
  nextId : Nat
  pending : List (Nat × Nat)
deriving DecidableEq

/-- Model of `setTimeout(cb, delay)`: returns a fresh handle and records
the pending timer. -/
def setTimeoutT (ts : TimerState) (delay : Nat) : Nat × TimerState :=
  (ts.nextId,
   { nextId := ts.nextId + 1, pending := ts.pending ++ [(ts.nextId, delay)] })

/-- Model of `clearTimeout(handle)`: drops the pending timer. -/
def clearTimeoutT (ts : TimerState) (h : Nat) : TimerState :=
  { ts with pending := ts.pending.filter (fun p => p.1 ≠ h) }

/-- The default of the `redirectDelay` prop of `OAuthCallbackScreen`. -/
def defaultRedirectDelay : Nat := 1500

/-- The default of the `autoRedirect` prop of `OAuthCallbackScreen`. -/
def defaultAutoRedirect : Bool := true

/-- Model of the auto-redirect `useEffect` body of `OAuthCallbackScreen`:
the guard of the source is `status === 'success' && autoRedirect &&
onSuccess`, so a timer is scheduled only when an `onSuccess` prop was
supplied (`hasOnSuccess`); the scheduled callback body itself performs no
action (the redirect is expected from the `onSuccess` callback).  Returns
the new timer state and the handle held by the cleanup closure, when any. -/
def autoRedirectEffect (status : UseOAuthCallback.OAuthStatus)
    (autoRedirect : Bool) (hasOnSuccess : Bool) (redirectDelay : Nat)
    (ts : TimerState) : TimerState × Option Nat :=
  if status = UseOAuthCallback.OAuthStatus.success ∧ autoRedirect = true ∧
      hasOnSuccess = true then
    let r := setTimeoutT ts redirectDelay
    (r.2, some r.1)
  else
    (ts, none)

/-- Model of running the cleanup of the effect on unmount: clear the held
timer handle, when one was scheduled. -/
def effectCleanup (ts : TimerState) (held : Option Nat) : TimerState :=
  match held with
  | some h => clearTimeoutT ts h
  | none => ts

end OAuthCallbackScreen

end OAuthExpo

open OAuthExpo

/-- Constant random oracle used by the C1 witness. -/
def randConst : Nat → Fin ExpoPKCEAdapter.pkceCharset.length := fun _ => ⟨0, by decide⟩

/-- Fixed base64 digest oracle used by the C1 witness. -/
def digestConst : String → String := fun _ => "QUJD"

/-- C5: isTokenExpired is true when no expiry is stored (fail-closed), true
when the stored expiry is less than the current time, false when the stored
expiry is greater than the current time, and with an explicit expiresAt
argument it compares directly against the current time without reading
storage. -/
theorem isTokenExpired_spec :
    (∀ (st : Store) (now : Int), st "token_expiry" = none →
      ExpoStorageAdapter.isTokenExpired st now none = true) ∧
    (∀ (st : Store) (now e : Int) (s : String), st "token_expiry" = some s →
      ExpoStorageAdapter.parseIntJS s = some e → e < now →
      ExpoStorageAdapter.isTokenExpired st now none = true) ∧
    (∀ (st : Store) (now e : Int) (s : String), st "token_expiry" = some s →
      ExpoStorageAdapter.parseIntJS s = some e → now < e →
      ExpoStorageAdapter.isTokenExpired st now none = false) ∧
    (∀ (st st2 : Store) (now e : Int),
      ExpoStorageAdapter.isTokenExpired st now (some e) =
        ExpoStorageAdapter.isTokenExpired st2 now (some e)) ∧
    (∀ (st : Store) (now e : Int),
      ExpoStorageAdapter.isTokenExpired st now (some e) = decide (e ≤ now)) := by
  refine ⟨?_, ?_, ?_, ?_, ?_⟩
  · intro st now h
    simp [ExpoStorageAdapter.isTokenExpired, h]
  · intro st now e s hs hp hlt
    have hne : s ≠ "" := by
      intro he
      have h0 : ExpoStorageAdapter.parseIntJS "" = none := by decide
      rw [he, h0] at hp
      exact Option.noConfusion hp
    simp only [ExpoStorageAdapter.isTokenExpired, hs, if_neg hne, hp]
    exact decide_eq_true (le_of_lt hlt)
  · intro st now e s hs hp hlt
    have hne : s ≠ "" := by
      intro he
      have h0 : ExpoStorageAdapter.parseIntJS "" = none := by decide
      rw [he, h0] at hp
      exact Option.noConfusion hp
    simp only [ExpoStorageAdapter.isTokenExpired, hs, if_neg hne, hp]
    exact decide_eq_false (not_le.mpr hlt)
  · intro st st2 now e
    rfl
  · intro st now e
    rfl

/-- Witness for C5 at a concrete store and time. -/
theorem isTokenExpired_spec_witness :
    ExpoStorageAdapter.isTokenExpired
      (ExpoStorageAdapter.setItem emptyStore "token_expiry" "4000") 5000 none = true :=
  isTokenExpired_spec.2.1 (ExpoStorageAdapter.setItem emptyStore "token_expiry" "4000")
    5000 4000 "4000" (by decide) (by decide) (by decide)

/-- C6: storing only an access token into an empty store reads back as that
token with null refresh token and expiry and the stamped Bearer token type;
omitted input fields skip the write of their key, and the token type is
always stamped "Bearer". -/
theorem storeTokens_getTokens_spec :
    (∀ now : Int,
      ExpoStorageAdapter.getTokens
        (ExpoStorageAdapter.storeTokens emptyStore now ⟨"a", none, none⟩) =
      ⟨some "a", none, none, some "Bearer"⟩) ∧
    (∀ (st : Store) (now : Int) (a : String),
      (ExpoStorageAdapter.storeTokens st now ⟨a, none, none⟩) "refresh_token" =
        st "refresh_token" ∧
      (ExpoStorageAdapter.storeTokens st now ⟨a, none, none⟩) "token_expiry" =
        st "token_expiry") ∧
    (∀ (st : Store) (now : Int) (i : ExpoStorageAdapter.StoreTokensInput),
      (ExpoStorageAdapter.storeTokens st now i) "token_type" = some "Bearer") :=
  ⟨fun _ => rfl, fun _ _ _ => ⟨rfl, rfl⟩, fun _ _ _ => rfl⟩

/-- C7 (amended): when expiresIn is provided and nonzero, token_expiry is
persisted as the decimal string of now + expiresIn * 1000; a zero expiresIn
is falsy in JS and skips the write.  Storing with expiresIn = -1 makes an
immediately following isTokenExpired return true. -/
theorem storeTokens_expiresIn_spec :
    (∀ (st : Store) (now : Int) (a : String) (rt : Option String) (n : Int),
      n ≠ 0 →
      (ExpoStorageAdapter.storeTokens st now ⟨a, rt, some n⟩) "token_expiry" =
        some (toString (now + n * 1000))) ∧
    ExpoStorageAdapter.isTokenExpired
      (ExpoStorageAdapter.storeTokens emptyStore 5000 ⟨"a", none, some (-1)⟩)
      5000 none = true := by
  constructor
  · intro st now a rt n hn
    simp only [ExpoStorageAdapter.storeTokens, ExpoStorageAdapter.setItem, if_pos hn]
    rw [if_neg (show ¬("token_expiry" = "token_type") by decide)]
    simp
  · decide

/-- Witness for C7 with a nonzero expiresIn. -/
theorem storeTokens_expiresIn_spec_witness :
    (ExpoStorageAdapter.storeTokens emptyStore 5000 ⟨"a", none, some 3600⟩)
      "token_expiry" = some (toString ((5000 : Int) + 3600 * 1000)) :=
  storeTokens_expiresIn_spec.1 emptyStore 5000 "a" none 3600 (by decide)

/-- Counterexample for C7 as stated: with expiresIn = 0 the key
token_expiry is not persisted at all. -/
theorem storeTokens_expiresIn_zero_counterexample :
    ¬ ((ExpoStorageAdapter.storeTokens emptyStore 5000 ⟨"a", none, some 0⟩)
        "token_expiry" = some (toString ((5000 : Int) + 0 * 1000))) := by decide

/-- C8: clearOAuthStorage removes exactly the nine reserved keys and no
others via a single bulk remove, and a failing bulk remove surfaces as one
wrapped error. -/
theorem clearOAuthStorage_spec :
    ExpoStorageAdapter.oauthKeys =
      ["access_token", "refresh_token", "token_expiry", "token_type",
       "oauth_state", "oauth_state_expiry", "pkce_code_verifier",
       "pkce_code_challenge", "pkce_code_challenge_method"] ∧
    ExpoStorageAdapter.oauthKeys.length = 9 ∧
    (∀ st : Store, ExpoStorageAdapter.clearOAuthStorage st false =
      Except.ok (ExpoStorageAdapter.removeItemsFrom st ExpoStorageAdapter.oauthKeys)) ∧
    (∀ (st : Store) (k : String), k ∈ ExpoStorageAdapter.oauthKeys →
      ExpoStorageAdapter.removeItemsFrom st ExpoStorageAdapter.oauthKeys k = none) ∧
    (∀ (st : Store) (k : String), k ∉ ExpoStorageAdapter.oauthKeys →
      ExpoStorageAdapter.removeItemsFrom st ExpoStorageAdapter.oauthKeys k = st k) ∧
    (∀ st : Store, ∃ msg : String,
      ExpoStorageAdapter.clearOAuthStorage st true = Except.error msg) := by
  refine ⟨rfl, rfl, fun _ => rfl, ?_, ?_, fun st => ⟨_, rfl⟩⟩
  · intro st k hk
    simp [ExpoStorageAdapter.removeItemsFrom, hk]
  · intro st k hk
    simp [ExpoStorageAdapter.removeItemsFrom, hk]

/-- Witness for C8 at a concrete store and keys. -/
theorem clearOAuthStorage_spec_witness :
    ExpoStorageAdapter.removeItemsFrom
      (ExpoStorageAdapter.setItem emptyStore "other" "v")
      ExpoStorageAdapter.oauthKeys "access_token" = none ∧
    ExpoStorageAdapter.removeItemsFrom
      (ExpoStorageAdapter.setItem emptyStore "other" "v")
      ExpoStorageAdapter.oauthKeys "other" =
      ExpoStorageAdapter.setItem emptyStore "other" "v" "other" :=
  ⟨clearOAuthStorage_spec.2.2.2.1 (ExpoStorageAdapter.setItem emptyStore "other" "v")
      "access_token" (by decide),
   clearOAuthStorage_spec.2.2.2.2.1 (ExpoStorageAdapter.setItem emptyStore "other" "v")
      "other" (by decide)⟩

/-- C10: when a token is present but reported expired, getAccessToken clears
the nine OAuth keys via logout and returns null instead of the stale token;
any throwing underlying operation also yields null. -/
theorem getAccessToken_spec :
    (∀ (st : Store) (tok : String), tok ≠ "" →
      (ExpoOAuthAdapter.getAccessToken st (Except.ok (some tok))
          (Except.ok true) false).1 = none ∧
      (∀ k, k ∈ ExpoStorageAdapter.oauthKeys →
        (ExpoOAuthAdapter.getAccessToken st (Except.ok (some tok))
            (Except.ok true) false).2 k = none) ∧
      (∀ k, k ∉ ExpoStorageAdapter.oauthKeys →
        (ExpoOAuthAdapter.getAccessToken st (Except.ok (some tok))
            (Except.ok true) false).2 k = st k)) ∧
    (∀ (st : Store) (e : String) (c2 : Except String Bool) (cf : Bool),
      (ExpoOAuthAdapter.getAccessToken st (Except.error e) c2 cf).1 = none) ∧
    (∀ (st : Store) (tok e : String) (cf : Bool),
      (ExpoOAuthAdapter.getAccessToken st (Except.ok (some tok))
          (Except.error e) cf).1 = none) ∧
    (∀ (st : Store) (tok : String),
      (ExpoOAuthAdapter.getAccessToken st (Except.ok (some tok))
          (Except.ok true) true).1 = none) := by
  refine ⟨?_, fun _ _ _ _ => rfl, ?_, ?_⟩
  · intro st tok ht
    refine ⟨?_, ?_, ?_⟩
    · simp [ExpoOAuthAdapter.getAccessToken, ht, ExpoOAuthAdapter.logout,
        ExpoStorageAdapter.clearOAuthStorage, ExpoStorageAdapter.removeItems]
    · intro k hk
      simp [ExpoOAuthAdapter.getAccessToken, ht, ExpoOAuthAdapter.logout,
        ExpoStorageAdapter.clearOAuthStorage, ExpoStorageAdapter.removeItems,
        ExpoStorageAdapter.removeItemsFrom, hk]
    · intro k hk
      simp [ExpoOAuthAdapter.getAccessToken, ht, ExpoOAuthAdapter.logout,
        ExpoStorageAdapter.clearOAuthStorage, ExpoStorageAdapter.removeItems,
        ExpoStorageAdapter.removeItemsFrom, hk]
  · intro st tok e cf
    by_cases h : tok = "" <;> simp [ExpoOAuthAdapter.getAccessToken, h]
  · intro st tok
    by_cases h : tok = "" <;>
      simp [ExpoOAuthAdapter.getAccessToken, h, ExpoOAuthAdapter.logout,
        ExpoStorageAdapter.clearOAuthStorage, ExpoStorageAdapter.removeItems]

/-- Witness for C10 at a concrete store and token. -/
theorem getAccessToken_spec_witness :
    (ExpoOAuthAdapter.getAccessToken (ExpoStorageAdapter.setItem emptyStore "x" "v")
        (Except.ok (some "T")) (Except.ok true) false).1 = none ∧
    (ExpoOAuthAdapter.getAccessToken (ExpoStorageAdapter.setItem emptyStore "x" "v")
        (Except.ok (some "T")) (Except.ok true) false).2 "access_token" = none ∧
    (ExpoOAuthAdapter.getAccessToken (ExpoStorageAdapter.setItem emptyStore "x" "v")
        (Except.ok (some "T")) (Except.ok true) false).2 "x" =
      ExpoStorageAdapter.setItem emptyStore "x" "v" "x" := by
  obtain ⟨h1, h2, h3⟩ := getAccessToken_spec.1
    (ExpoStorageAdapter.setItem emptyStore "x" "v") "T" (by decide)
  exact ⟨h1, h2 "access_token" (by decide), h3 "x" (by decide)⟩


/-- C2: whenever the delegated handler resolves with a success-flagged
result — on the auto-started run or when re-invoked via retry, which the
source defines as a call of the same handleCallback — the status becomes
success, the message becomes "Authentication successful", and the success
callback is invoked exactly once with the full result. -/
theorem handleCallback_success_spec :
    ∀ r : OAuthResult, r.success = true →
      UseOAuthCallback.handleCallback (Except.ok r) =
        { status := UseOAuthCallback.OAuthStatus.success,
          message := "Authentication successful",
          successCalls := [r], errorCalls := [] } ∧
      UseOAuthCallback.retry (Except.ok r) =
        UseOAuthCallback.handleCallback (Except.ok r) := by
  intro r h
  exact ⟨by simp [UseOAuthCallback.handleCallback, h], rfl⟩

/-- Witness for C2 with the result of the spec scenario. -/
theorem handleCallback_success_spec_witness :
    UseOAuthCallback.handleCallback
        (Except.ok ⟨true, none, some "T"⟩) =
      { status := UseOAuthCallback.OAuthStatus.success,
        message := "Authentication successful",
        successCalls := [⟨true, none, some "T"⟩], errorCalls := [] } ∧
    UseOAuthCallback.retry (Except.ok ⟨true, none, some "T"⟩) =
      UseOAuthCallback.handleCallback (Except.ok ⟨true, none, some "T"⟩) :=
  handleCallback_success_spec ⟨true, none, some "T"⟩ rfl

/-- C3: a failure-flagged result or a thrown error yields the error status,
a message equal to the available string reason with a generic fallback, and
one error-callback invocation with the normalized error; in particular a
rejection with an Error carrying "Network error" yields that message. -/
theorem handleCallback_error_spec :
    (∀ t : Thrown,
      (UseOAuthCallback.handleCallback (Except.error t)).status =
        UseOAuthCallback.OAuthStatus.error) ∧
    (∀ m : String,
      UseOAuthCallback.handleCallback (Except.error (Thrown.errObj m)) =
        ⟨UseOAuthCallback.OAuthStatus.error, m, [], [m]⟩) ∧
    (UseOAuthCallback.handleCallback (Except.error Thrown.other) =
        ⟨UseOAuthCallback.OAuthStatus.error, "Unknown error occurred", [],
         ["Unknown error occurred"]⟩) ∧
    (∀ (e : String) (acc : Option String), e ≠ "" →
      UseOAuthCallback.handleCallback (Except.ok ⟨false, some e, acc⟩) =
        ⟨UseOAuthCallback.OAuthStatus.error, e, [], [e]⟩) ∧
    (∀ acc : Option String,
      UseOAuthCallback.handleCallback (Except.ok ⟨false, none, acc⟩) =
        ⟨UseOAuthCallback.OAuthStatus.error, "OAuth authentication failed", [],
         ["OAuth authentication failed"]⟩) ∧
    UseOAuthCallback.handleCallback (Except.error (Thrown.errObj "Network error")) =
      ⟨UseOAuthCallback.OAuthStatus.error, "Network error", [], ["Network error"]⟩ := by
  refine ⟨?_, fun m => rfl, rfl, ?_, fun acc => rfl, rfl⟩
  · intro t
    cases t <;> rfl
  · intro e acc he
    simp [UseOAuthCallback.handleCallback, UseOAuthCallback.failureMessage, he]

/-- Witness for C3 with a nonempty failure reason. -/
theorem handleCallback_error_spec_witness :
    UseOAuthCallback.handleCallback (Except.ok ⟨false, some "boom", none⟩) =
      ⟨UseOAuthCallback.OAuthStatus.error, "boom", [], ["boom"]⟩ :=
  handleCallback_error_spec.2.2.2.1 "boom" none (by decide)



theorem exists_fst_urlSearchSet (ps : List (String × String)) (key val k : String) :
    (∃ p ∈ ExpoOAuthAdapter.urlSearchSet ps key val, p.1 = k) ↔
      k = key ∨ ∃ p ∈ ps, p.1 = k := by
  induction ps with
  | nil =>
    simp [ExpoOAuthAdapter.urlSearchSet, eq_comm]
  | cons q rest ih =>
    obtain ⟨k0, v0⟩ := q
    by_cases h : k0 = key
    · subst h
      simp only [ExpoOAuthAdapter.urlSearchSet, if_pos rfl]
      constructor
      · rintro ⟨p, hp, rfl⟩
        rcases List.mem_cons.mp hp with heq | hp2
        · exact Or.inl (congrArg Prod.fst heq)
        · exact Or.inr ⟨p, List.mem_cons_of_mem _ (List.mem_of_mem_filter hp2), rfl⟩
      · rintro (rfl | ⟨p, hp, rfl⟩)
        · exact ⟨(k, val), List.mem_cons_self _ _, rfl⟩
        · rcases List.mem_cons.mp hp with heq | hp2
          · exact ⟨(k0, val), List.mem_cons_self _ _, (congrArg Prod.fst heq).symm⟩
          · by_cases hpe : p.1 = k0
            · exact ⟨(k0, val), List.mem_cons_self _ _, hpe.symm⟩
            · refine ⟨p, List.mem_cons_of_mem _ (List.mem_filter.mpr ⟨hp2, ?_⟩), rfl⟩
              exact decide_eq_true hpe
    · simp only [ExpoOAuthAdapter.urlSearchSet, if_neg h]
      constructor
      · rintro ⟨p, hp, rfl⟩
        rcases List.mem_cons.mp hp with heq | hp2
        · exact Or.inr ⟨(k0, v0), List.mem_cons_self _ _, (congrArg Prod.fst heq).symm⟩
        · rcases ih.mp ⟨p, hp2, rfl⟩ with hk | ⟨p2, hp3, hk⟩
          · exact Or.inl hk
          · exact Or.inr ⟨p2, List.mem_cons_of_mem _ hp3, hk⟩
      · rintro (rfl | ⟨p, hp, rfl⟩)
        · rcases ih.mpr (Or.inl rfl) with ⟨p, hp2, hk⟩
          exact ⟨p, List.mem_cons_of_mem _ hp2, hk⟩
        · rcases List.mem_cons.mp hp with heq | hp2
          · exact ⟨(k0, v0), List.mem_cons_self _ _, (congrArg Prod.fst heq).symm⟩
          · rcases ih.mpr (Or.inr ⟨p, hp2, rfl⟩) with ⟨p2, hp3, hk⟩
            exact ⟨p2, List.mem_cons_of_mem _ hp3, hk⟩

theorem exists_fst_toUrlSearchParams_aux (ps : ExpoOAuthAdapter.CallbackParams)
    (acc : List (String × String)) (k : String) :
    (∃ p ∈ ps.foldl
        (fun acc kv =>
          match kv.2 with
          | some v => ExpoOAuthAdapter.urlSearchSet acc kv.1 v
          | none => acc)
        acc, p.1 = k) ↔
      (∃ v, (k, some v) ∈ ps) ∨ ∃ p ∈ acc, p.1 = k := by
  induction ps generalizing acc with
  | nil => simp
  | cons q rest ih =>
    obtain ⟨k0, ov⟩ := q
    cases ov with
    | none =>
      rw [List.foldl_cons]
      rw [ih]
      constructor
      · rintro (⟨v, hv⟩ | hk)
        · exact Or.inl ⟨v, List.mem_cons_of_mem _ hv⟩
        · exact Or.inr hk
      · rintro (⟨v, hv⟩ | hk)
        · rcases List.mem_cons.mp hv with heq | hv2
          · exact absurd (congrArg Prod.snd heq) (by simp)
          · exact Or.inl ⟨v, hv2⟩
        · exact Or.inr hk
    | some v0 =>
      rw [List.foldl_cons]
      rw [ih]
      constructor
      · rintro (⟨v, hv⟩ | hk)
        · exact Or.inl ⟨v, List.mem_cons_of_mem _ hv⟩
        · rcases (exists_fst_urlSearchSet acc k0 v0 k).mp hk with hke | hk2
          · exact Or.inl ⟨v0, hke ▸ List.mem_cons_self _ _⟩
          · exact Or.inr hk2
      · rintro (⟨v, hv⟩ | hk)
        · rcases List.mem_cons.mp hv with heq | hv2
          · refine Or.inr ((exists_fst_urlSearchSet acc k0 v0 k).mpr
              (Or.inl (congrArg Prod.fst heq)))
          · exact Or.inl ⟨v, hv2⟩
        · exact Or.inr ((exists_fst_urlSearchSet acc k0 v0 k).mpr (Or.inr hk))

theorem toUrlSearchParams_spec :
    (∀ (params : ExpoOAuthAdapter.CallbackParams) (k : String),
      k ∈ ExpoOAuthAdapter.queryKeys (ExpoOAuthAdapter.toUrlSearchParams params) ↔
        ∃ v, (k, some v) ∈ params) ∧
    (∀ (core : List (String × String) → Except Thrown OAuthResult)
        (params : ExpoOAuthAdapter.CallbackParams),
      ExpoOAuthAdapter.handleCallback core params =
        core (ExpoOAuthAdapter.toUrlSearchParams params)) ∧
    ExpoOAuthAdapter.toUrlSearchParams [("code", some "X"), ("state", none)] =
      [("code", "X")] := by
  refine ⟨?_, fun _ _ => rfl, by decide⟩
  intro params k
  have hmap : k ∈ ExpoOAuthAdapter.queryKeys (ExpoOAuthAdapter.toUrlSearchParams params) ↔
      ∃ p ∈ ExpoOAuthAdapter.toUrlSearchParams params, p.1 = k := by
    simp [ExpoOAuthAdapter.queryKeys]
  rw [hmap]
  rw [ExpoOAuthAdapter.toUrlSearchParams, exists_fst_toUrlSearchParams_aux]
  simp

/-- C9 (amended): when the screen is in the success state with auto-redirect
enabled and an onSuccess callback supplied, the effect schedules a timer
with the configured delay (default 1500 ms), and the cleanup run on unmount
cancels exactly that timer, leaving the pending set as it was. -/
theorem autoRedirectEffect_spec :
    OAuthCallbackScreen.defaultRedirectDelay = 1500 ∧
    OAuthCallbackScreen.defaultAutoRedirect = true ∧
    (∀ (ar hs : Bool) (delay : Nat) (ts : OAuthCallbackScreen.TimerState),
      ar = true → hs = true →
      (∀ p ∈ ts.pending, p.1 < ts.nextId) →
      (OAuthCallbackScreen.autoRedirectEffect UseOAuthCallback.OAuthStatus.success
          ar hs delay ts).2 = some ts.nextId ∧
      (OAuthCallbackScreen.autoRedirectEffect UseOAuthCallback.OAuthStatus.success
          ar hs delay ts).1.pending = ts.pending ++ [(ts.nextId, delay)] ∧
      (OAuthCallbackScreen.effectCleanup
          (OAuthCallbackScreen.autoRedirectEffect UseOAuthCallback.OAuthStatus.success
            ar hs delay ts).1
          (OAuthCallbackScreen.autoRedirectEffect UseOAuthCallback.OAuthStatus.success
            ar hs delay ts).2).pending = ts.pending) := by
  refine ⟨rfl, rfl, ?_⟩
  intro ar hs delay ts har hhs hwf
  subst har hhs
  have hred : OAuthCallbackScreen.autoRedirectEffect UseOAuthCallback.OAuthStatus.success
      true true delay ts =
      ({ nextId := ts.nextId + 1, pending := ts.pending ++ [(ts.nextId, delay)] },
       some ts.nextId) := by
    simp [OAuthCallbackScreen.autoRedirectEffect, OAuthCallbackScreen.setTimeoutT]
  rw [hred]
  refine ⟨rfl, rfl, ?_⟩
  simp only [OAuthCallbackScreen.effectCleanup, OAuthCallbackScreen.clearTimeoutT]
  rw [List.filter_append]
  have h1 : List.filter (fun p => decide (p.1 ≠ ts.nextId)) ts.pending = ts.pending := by
    rw [List.filter_eq_self]
    intro p hp
    exact decide_eq_true (Nat.ne_of_lt (hwf p hp))
  have h2 : List.filter (fun p => decide (p.1 ≠ ts.nextId))
      [(ts.nextId, delay)] = [] := by simp
  rw [h1, h2, List.append_nil]

/-- Witness for C9 at a concrete timer state. -/
theorem autoRedirectEffect_spec_witness :
    (OAuthCallbackScreen.autoRedirectEffect UseOAuthCallback.OAuthStatus.success
        true true 1500 ⟨5, [(3, 100)]⟩).2 = some 5 ∧
    (OAuthCallbackScreen.autoRedirectEffect UseOAuthCallback.OAuthStatus.success
        true true 1500 ⟨5, [(3, 100)]⟩).1.pending = [(3, 100), (5, 1500)] ∧
    (OAuthCallbackScreen.effectCleanup
        (OAuthCallbackScreen.autoRedirectEffect UseOAuthCallback.OAuthStatus.success
          true true 1500 ⟨5, [(3, 100)]⟩).1
        (OAuthCallbackScreen.autoRedirectEffect UseOAuthCallback.OAuthStatus.success
          true true 1500 ⟨5, [(3, 100)]⟩).2).pending = [(3, 100)] :=
  autoRedirectEffect_spec.2.2 true true 1500 ⟨5, [(3, 100)]⟩ rfl rfl (by decide)

/-- Counterexample for C9 as stated: in the success state with auto-redirect
enabled but no onSuccess prop supplied, no timer is scheduled at all. -/
theorem autoRedirectEffect_counterexample :
    (OAuthCallbackScreen.autoRedirectEffect UseOAuthCallback.OAuthStatus.success
        true false OAuthCallbackScreen.defaultRedirectDelay ⟨0, []⟩).2 = none ∧
    (OAuthCallbackScreen.autoRedirectEffect UseOAuthCallback.OAuthStatus.success
        true false OAuthCallbackScreen.defaultRedirectDelay ⟨0, []⟩).1.pending = [] := by
  decide


theorem subst_char_base64url :
    ∀ d ∈ ExpoPKCEAdapter.base64Chars,
      ExpoPKCEAdapter.slashToUnderscore (ExpoPKCEAdapter.plusToMinus d) = '=' ∨
      ExpoPKCEAdapter.slashToUnderscore (ExpoPKCEAdapter.plusToMinus d) ∈
        ExpoPKCEAdapter.base64urlChars := by decide

theorem subst_char_eq_pad_iff (d : Char) :
    ExpoPKCEAdapter.slashToUnderscore (ExpoPKCEAdapter.plusToMinus d) = '=' ↔ d = '=' := by
  unfold ExpoPKCEAdapter.slashToUnderscore ExpoPKCEAdapter.plusToMinus
  by_cases h1 : d = '+'
  · subst h1
    simp
  · rw [if_neg h1]
    by_cases h2 : d = '/'
    · subst h2
      simp
    · rw [if_neg h2]

theorem subst_char_ne_plus (d : Char) :
    ExpoPKCEAdapter.slashToUnderscore (ExpoPKCEAdapter.plusToMinus d) ≠ '+' := by
  unfold ExpoPKCEAdapter.slashToUnderscore ExpoPKCEAdapter.plusToMinus
  by_cases h1 : d = '+'
  · subst h1
    simp
  · rw [if_neg h1]
    by_cases h2 : d = '/'
    · subst h2
      simp
    · rw [if_neg h2]
      exact h1

theorem subst_char_ne_slash (d : Char) :
    ExpoPKCEAdapter.slashToUnderscore (ExpoPKCEAdapter.plusToMinus d) ≠ '/' := by
  unfold ExpoPKCEAdapter.slashToUnderscore ExpoPKCEAdapter.plusToMinus
  by_cases h1 : d = '+'
  · subst h1
    simp
  · rw [if_neg h1]
    by_cases h2 : d = '/'
    · subst h2
      simp
    · rw [if_neg h2]
      exact h2

/-- C1: every generated PKCE set has a 128-character verifier over the
66-character unreserved set, a challenge equal to the base64url transform
of the SHA-256 base64 digest of the verifier — hence matching the base64url
alphabet, nonempty, and free of plus, slash and padding — and the literal
method "S256".  The digest oracle is assumed to return standard base64 with
at least one non-padding character, as a real SHA-256 base64 digest does. -/
theorem generateCodeChallenge_spec
    (rand : Nat → Fin ExpoPKCEAdapter.pkceCharset.length)
    (digestBase64 : String → String)
    (hchars : ∀ c ∈ (digestBase64
        (ExpoPKCEAdapter.generateRandomString 128 rand)).data,
      c ∈ ExpoPKCEAdapter.base64Chars)
    (hsome : ∃ c ∈ (digestBase64
        (ExpoPKCEAdapter.generateRandomString 128 rand)).data, c ≠ '=') :
    (ExpoPKCEAdapter.generateCodeChallenge rand digestBase64).codeVerifier.length = 128 ∧
    (∀ c ∈ (ExpoPKCEAdapter.generateCodeChallenge rand digestBase64).codeVerifier.data,
      c ∈ ExpoPKCEAdapter.pkceCharset) ∧
    (ExpoPKCEAdapter.generateCodeChallenge rand digestBase64).codeChallenge =
      ExpoPKCEAdapter.base64urlOfBase64 (digestBase64
        (ExpoPKCEAdapter.generateCodeChallenge rand digestBase64).codeVerifier) ∧
    (∀ c ∈ (ExpoPKCEAdapter.generateCodeChallenge rand digestBase64).codeChallenge.data,
      c ∈ ExpoPKCEAdapter.base64urlChars) ∧
    (ExpoPKCEAdapter.generateCodeChallenge rand digestBase64).codeChallenge ≠ "" ∧
    '+' ∉ (ExpoPKCEAdapter.generateCodeChallenge rand digestBase64).codeChallenge.data ∧
    '/' ∉ (ExpoPKCEAdapter.generateCodeChallenge rand digestBase64).codeChallenge.data ∧
    '=' ∉ (ExpoPKCEAdapter.generateCodeChallenge rand digestBase64).codeChallenge.data ∧
    (ExpoPKCEAdapter.generateCodeChallenge rand digestBase64).codeChallengeMethod =
      "S256" := by
  refine ⟨?_, ?_, rfl, ?_, ?_, ?_, ?_, ?_, rfl⟩
  · show (String.mk ((List.range 128).map
      (fun i => ExpoPKCEAdapter.pkceCharset.get (rand i)))).length = 128
    simp [String.length]
  · intro c hc
    have hc2 : c ∈ (List.range 128).map
        (fun i => ExpoPKCEAdapter.pkceCharset.get (rand i)) := hc
    rcases List.mem_map.mp hc2 with ⟨i, _, rfl⟩
    exact List.get_mem ExpoPKCEAdapter.pkceCharset (rand i).val (rand i).isLt
  · intro c hc
    have hc2 : c ∈ (((digestBase64
        (ExpoPKCEAdapter.generateRandomString 128 rand)).data.map
        ExpoPKCEAdapter.plusToMinus).map
        ExpoPKCEAdapter.slashToUnderscore).filter (fun x => x ≠ '=') := hc
    rcases List.mem_filter.mp hc2 with ⟨hmem, hne⟩
    rcases List.mem_map.mp hmem with ⟨c1, hc1, rfl⟩
    rcases List.mem_map.mp hc1 with ⟨d, hd, rfl⟩
    rcases subst_char_base64url d (hchars d hd) with hpad | hok
    · rw [hpad] at hne
      exact absurd hne (by decide)
    · exact hok
  · rcases hsome with ⟨d, hd, hdne⟩
    intro hempty
    have hc : ExpoPKCEAdapter.slashToUnderscore (ExpoPKCEAdapter.plusToMinus d) ∈
        (((digestBase64
          (ExpoPKCEAdapter.generateRandomString 128 rand)).data.map
          ExpoPKCEAdapter.plusToMinus).map
          ExpoPKCEAdapter.slashToUnderscore).filter (fun x => x ≠ '=') := by
      refine List.mem_filter.mpr ⟨?_, ?_⟩
      · exact List.mem_map.mpr ⟨ExpoPKCEAdapter.plusToMinus d,
          List.mem_map.mpr ⟨d, hd, rfl⟩, rfl⟩
      · exact decide_eq_true (fun h => hdne ((subst_char_eq_pad_iff d).mp h))
    have hdata : (ExpoPKCEAdapter.generateCodeChallenge rand
        digestBase64).codeChallenge.data = [] := by
      rw [hempty]
    rw [show ((ExpoPKCEAdapter.generateCodeChallenge rand
        digestBase64).codeChallenge.data) = (((digestBase64
          (ExpoPKCEAdapter.generateRandomString 128 rand)).data.map
          ExpoPKCEAdapter.plusToMinus).map
          ExpoPKCEAdapter.slashToUnderscore).filter (fun x => x ≠ '=') from rfl] at hdata
    rw [hdata] at hc
    exact absurd hc (List.not_mem_nil _)
  · intro hplus
    have hc2 : ('+' : Char) ∈ (((digestBase64
        (ExpoPKCEAdapter.generateRandomString 128 rand)).data.map
        ExpoPKCEAdapter.plusToMinus).map
        ExpoPKCEAdapter.slashToUnderscore).filter (fun x => x ≠ '=') := hplus
    rcases List.mem_filter.mp hc2 with ⟨hmem, _⟩
    rcases List.mem_map.mp hmem with ⟨c1, hc1, heq⟩
    rcases List.mem_map.mp hc1 with ⟨d, _, rfl⟩
    exact subst_char_ne_plus d heq
  · intro hslash
    have hc2 : ('/' : Char) ∈ (((digestBase64
        (ExpoPKCEAdapter.generateRandomString 128 rand)).data.map
        ExpoPKCEAdapter.plusToMinus).map
        ExpoPKCEAdapter.slashToUnderscore).filter (fun x => x ≠ '=') := hslash
    rcases List.mem_filter.mp hc2 with ⟨hmem, _⟩
    rcases List.mem_map.mp hmem with ⟨c1, hc1, heq⟩
    rcases List.mem_map.mp hc1 with ⟨d, _, rfl⟩
    exact subst_char_ne_slash d heq
  · intro hpad
    have hc2 : ('=' : Char) ∈ (((digestBase64
        (ExpoPKCEAdapter.generateRandomString 128 rand)).data.map
        ExpoPKCEAdapter.plusToMinus).map
        ExpoPKCEAdapter.slashToUnderscore).filter (fun x => x ≠ '=') := hpad
    rcases List.mem_filter.mp hc2 with ⟨_, hne⟩
    exact absurd hne (by decide)


/-- Witness for C1 with a constant random oracle and a fixed base64 digest. -/
theorem generateCodeChallenge_spec_witness :
    (ExpoPKCEAdapter.generateCodeChallenge randConst digestConst).codeVerifier.length
        = 128 ∧
    (ExpoPKCEAdapter.generateCodeChallenge randConst digestConst).codeChallenge ≠ "" ∧
    (ExpoPKCEAdapter.generateCodeChallenge randConst digestConst).codeChallengeMethod
        = "S256" := by
  have h := generateCodeChallenge_spec randConst digestConst (by decide) (by decide)
  exact ⟨h.1, h.2.2.2.2.1, h.2.2.2.2.2.2.2.2⟩
